import Mathlib

/-!
Shallow embedding of the OceanWatch cascading-deletion subsystem.

Source files embedded here:
- `packages/backend-api/src/services/deletionService.js` (`DeletionService`):
  `deleteReportCompletely`, `deleteFromAllRelatedTables`,
  `deleteAssociatedFiles`, `logDeletionAction`, `bulkDeleteReports`,
  `validateReportExists`.
- `packages/backend-api/src/controllers/reportController.js`:
  `deleteReport` (HTTP handler) and `bulkDeleteReports` (HTTP handler).

The database is modelled as an explicit state record; postgres faults that
the JavaScript observes as thrown exceptions (a cascade delete throwing, the
audit insert throwing, a concurrent deletion making the report-row delete
affect zero rows, a filesystem unlink failing) are modelled as a fault
environment `Env` threaded through the run.  Each run also produces a trace
of connection/transaction/filesystem events so that temporal claims
(ordering of file deletion versus commit, connection release) are statable.
-/

namespace OceanWatch

/-- A row of the `reports` table, restricted to the columns the deletion
subsystem reads (`SELECT id, image_url, video_url, user_id, event_type,
created_at FROM reports WHERE id = $1`). -/
structure Report where
  id : Nat
  image_url : Option String
  video_url : Option String
  user_id : Nat
  event_type : String
  created_at : Nat
deriving DecidableEq

/-- A row of the `deletion_logs` audit table, as inserted by
`DeletionService.logDeletionAction`. -/
structure DeletionLogRow where
  report_id : Nat
  original_user_id : Nat
  deleted_by_admin_id : Nat
  event_type : String
  original_created_at : Nat
  had_image : Bool
  had_video : Bool
deriving DecidableEq

/-- The database state visible to the deletion subsystem: the `reports`
table, the rows of the optional auxiliary tables (tagged by table name),
the set of auxiliary tables that exist in the current schema, and the
`deletion_logs` audit table. -/
structure DBState where
  reports : List Report
  auxRows : List (String × Nat)
  existingTables : List String
  deletion_logs : List DeletionLogRow
  deletionLogsTableExists : Bool
deriving DecidableEq

/-- The filesystem: the set of paths that currently exist under uploads. -/
abbrev FSState := List String

/-- Observable events of one `deleteReportCompletely` run. -/
inductive Event where
  | acquire
  | beginTx
  | fsUnlink (p : String)
  | auxDelete (t : String)
  | reportDelete
  | auditInsert
  | commit
  | rollback
  | release
deriving DecidableEq

/-- Fault environment: which database/filesystem operations throw during
this run. `concurrentDeleteWins` models a concurrent deletion committing
between this transaction's fetch and its `DELETE FROM reports`, so that the
delete affects zero rows. -/
structure Env where
  cascadeFails : String → Bool
  auditFails : Bool
  fileFails : String → Bool
  concurrentDeleteWins : Bool

/-- One entry of `deletionResults.tablesProcessed`. -/
structure ProcessedEntry where
  table : String
  deletedRows : Nat
deriving DecidableEq

/-- One entry of `deletionResults.tablesSkipped`. -/
structure SkippedEntry where
  table : String
  reason : String
deriving DecidableEq

/-- One entry of `deletionResults.errors`. -/
structure ErrorEntry where
  table : String
  error : String
deriving DecidableEq

/-- The `deletionResults` accumulator built by
`deleteFromAllRelatedTables`. -/
structure DeletionResults where
  tablesProcessed : List ProcessedEntry
  tablesSkipped : List SkippedEntry
  errors : List ErrorEntry
  totalDeleted : Nat
deriving DecidableEq

/-- An allow-listed auxiliary table (name and human description), from the
`relatedTables` array in `deleteFromAllRelatedTables`. -/
structure RelatedTable where
  name : String
  description : String
deriving DecidableEq

/-- The statically configured allow-list of auxiliary tables, in source
order. -/
def relatedTables : List RelatedTable :=
  [⟨"map_markers", "Map marker positions"⟩,
   ⟨"analytics_daily", "Daily analytics data"⟩,
   ⟨"analytics", "Analytics data"⟩,
   ⟨"metrics_cache", "Cached metrics"⟩,
   ⟨"activity_logs", "Activity log entries"⟩,
   ⟨"report_analytics", "Report-specific analytics"⟩,
   ⟨"report_metrics", "Report metrics data"⟩]

/-- The `for (const table of relatedTables)` loop body of
`deleteFromAllRelatedTables`: probe `information_schema.tables`; if the
table is missing push a skipped entry; if the delete throws push an error
entry and continue; otherwise delete the matching auxiliary rows and push a
processed entry. -/
def processTables (cascadeFails : String → Bool) (reportId : Nat) :
    List RelatedTable → DeletionResults → DBState → List Event →
    DeletionResults × DBState × List Event
  | [], res, db, tr => (res, db, tr)
  | t :: rest, res, db, tr =>
    if db.existingTables.contains t.name = false then
      processTables cascadeFails reportId rest
        { res with tablesSkipped := res.tablesSkipped ++ [⟨t.name, "Table does not exist"⟩] }
        db tr
    else if cascadeFails t.name then
      processTables cascadeFails reportId rest
        { res with errors := res.errors ++ [⟨t.name, "delete failed"⟩] }
        db tr
    else
      let deleted := db.auxRows.filter (fun r => r.1 == t.name && r.2 == reportId)
      processTables cascadeFails reportId rest
        { res with
            tablesProcessed := res.tablesProcessed ++ [⟨t.name, deleted.length⟩],
            totalDeleted := res.totalDeleted + deleted.length }
        { db with auxRows := db.auxRows.filter (fun r => !(r.1 == t.name && r.2 == reportId)) }
        (tr ++ [Event.auxDelete t.name])

/-- `DeletionService.deleteFromAllRelatedTables(client, reportId)`. -/
def deleteFromAllRelatedTables (cascadeFails : String → Bool) (db : DBState)
    (reportId : Nat) : DeletionResults × DBState × List Event :=
  processTables cascadeFails reportId relatedTables ⟨[], [], [], 0⟩ db []

/-- `path.basename`: the final path segment of a url — the characters
after the last slash. -/
def basename (url : String) : String :=
  String.mk (((url.data.reverse).takeWhile (fun c => !(c == '/'))).reverse)

/-- `path.join(__dirname, '../../uploads', path.basename(url))`, with the
uploads directory abstracted to the prefix `uploads/`. -/
def assetPath (url : String) : String :=
  "uploads/" ++ basename url

/-- The `filesToDelete` list built by `deleteAssociatedFiles`: image asset
path if present, then video asset path if present. -/
def filesToDelete (r : Report) : List String :=
  (match r.image_url with
   | some u => [assetPath u]
   | none => []) ++
  (match r.video_url with
   | some u => [assetPath u]
   | none => [])

/-- The `for (const filePath of filesToDelete)` loop of
`deleteAssociatedFiles`: `fs.access` then `fs.unlink`, every error caught
and only logged. -/
def unlinkFiles (fileFails : String → Bool) :
    List String → FSState → List Event → FSState × List Event
  | [], fs, tr => (fs, tr)
  | p :: rest, fs, tr =>
    if fs.contains p then
      if fileFails p then
        unlinkFiles fileFails rest fs tr
      else
        unlinkFiles fileFails rest (fs.filter (fun q => !(q == p))) (tr ++ [Event.fsUnlink p])
    else
      unlinkFiles fileFails rest fs tr

/-- `DeletionService.deleteAssociatedFiles(report)`. -/
def deleteAssociatedFiles (fileFails : String → Bool) (fs : FSState) (r : Report) :
    FSState × List Event :=
  unlinkFiles fileFails (filesToDelete r) fs []

/-- `DeletionService.logDeletionAction(client, reportId, report,
adminUserId, deletionResults)`: create `deletion_logs` if absent, insert
the audit row; any error is caught and swallowed (`Don't fail the deletion
if logging fails`). -/
def logDeletionAction (auditFails : Bool) (db : DBState) (reportId : Nat)
    (report : Report) (adminUserId : Nat) : DBState × List Event :=
  if auditFails then
    (db, [])
  else
    ({ db with
        deletionLogsTableExists := true,
        deletion_logs := db.deletion_logs ++
          [⟨reportId, report.user_id, adminUserId, report.event_type,
            report.created_at, report.image_url.isSome, report.video_url.isSome⟩] },
     [Event.auditInsert])

/-- The success payload of `deleteReportCompletely`. -/
structure DeleteSuccess where
  deletedReport : Report
  deletionResults : DeletionResults
deriving DecidableEq

/-- The two errors `deleteReportCompletely` itself throws. -/
inductive DelErr where
  | reportNotFound
  | failedToDeleteReport
deriving DecidableEq

/-- `error.message` of a `DelErr`. -/
def errMessage : DelErr → String
  | .reportNotFound => "Report not found"
  | .failedToDeleteReport => "Failed to delete report"

/-- Result of one `deleteReportCompletely` run. -/
inductive DeleteResult where
  | ok (s : DeleteSuccess)
  | err (e : DelErr)
deriving DecidableEq

/-- Whether a `DeleteResult` is a success. -/
def DeleteResult.isOk : DeleteResult → Bool
  | .ok _ => true
  | .err _ => false

/-- Full observable output of one `deleteReportCompletely` run: the
result, the post-run database (rolled back to the input on error), the
post-run filesystem (file deletions are never rolled back), and the event
trace. -/
structure RunOutput where
  result : DeleteResult
  db : DBState
  fs : FSState
  trace : List Event
deriving DecidableEq

/-- `DeletionService.deleteReportCompletely(reportId, adminUserId)`:
acquire a pooled client, BEGIN, fetch the report (absent throws `Report
not found`), delete associated files, cascade over auxiliary tables,
delete the report row (zero rows affected throws `Failed to delete
report`), write the audit row, COMMIT; any throw is caught, the
transaction rolled back and the error re-thrown; the client is released in
`finally` on every path. -/
def deleteReportCompletely (env : Env) (db : DBState) (fs : FSState)
    (reportId adminUserId : Nat) : RunOutput :=
  let tr0 : List Event := [Event.acquire, Event.beginTx]
  match db.reports.find? (fun r => r.id == reportId) with
  | none =>
    ⟨.err .reportNotFound, db, fs, tr0 ++ [Event.rollback, Event.release]⟩
  | some report =>
    let fsRun := deleteAssociatedFiles env.fileFails fs report
    let cascade := deleteFromAllRelatedTables env.cascadeFails db reportId
    let results := cascade.1
    let db1 := cascade.2.1
    let deletedRows :=
      if env.concurrentDeleteWins then ([] : List Report)
      else db1.reports.filter (fun r => r.id == reportId)
    let db2 :=
      if env.concurrentDeleteWins then db1
      else { db1 with reports := db1.reports.filter (fun r => !(r.id == reportId)) }
    let trD := tr0 ++ fsRun.2 ++ cascade.2.2 ++ [Event.reportDelete]
    if deletedRows.isEmpty then
      ⟨.err .failedToDeleteReport, db, fsRun.1, trD ++ [Event.rollback, Event.release]⟩
    else
      let audit := logDeletionAction env.auditFails db2 reportId report adminUserId
      ⟨.ok ⟨report, results⟩, audit.1, fsRun.1,
       trD ++ audit.2 ++ [Event.commit, Event.release]⟩

/-- `DeletionService.validateReportExists(reportId)`: the controller's
pre-check query, run outside the transaction. -/
def validateReportExists (db : DBState) (reportId : Nat) : Option Report :=
  db.reports.find? (fun r => r.id == reportId)

/-- The value of a hexadecimal digit character, if it is one. -/
def hexDigitVal (c : Char) : Option Nat :=
  if c.isDigit then some (c.toNat - 48)
  else if 'a' ≤ c && c ≤ 'f' then some (c.toNat - 87)
  else if 'A' ≤ c && c ≤ 'F' then some (c.toNat - 55)
  else none

/-- Fold a list of decimal digit characters into a number. -/
def decimalVal (cs : List Char) : Nat :=
  cs.foldl (fun a c => a * 10 + (c.toNat - 48)) 0

/-- Fold a list of hexadecimal digit characters into a number. -/
def hexVal (cs : List Char) : Nat :=
  cs.foldl (fun a c => a * 16 + (hexDigitVal c).getD 0) 0

/-- JavaScript `parseInt(s)` with no radix argument: skip leading
whitespace, read an optional sign, then either a `0x`-prefixed run of hex
digits or the longest run of decimal digits; `none` models `NaN`. -/
def jsParseInt (s : String) : Option Int :=
  let cs := s.data.dropWhile Char.isWhitespace
  let signed : Int × List Char :=
    match cs with
    | '-' :: rest => (-1, rest)
    | '+' :: rest => (1, rest)
    | _ => (1, cs)
  match signed.2 with
  | '0' :: c :: rest =>
    if c == 'x' || c == 'X' then
      let hx := rest.takeWhile (fun d => (hexDigitVal d).isSome)
      if hx.isEmpty then none else some (signed.1 * (hexVal hx : Nat))
    else
      let ds := signed.2.takeWhile Char.isDigit
      if ds.isEmpty then none else some (signed.1 * (decimalVal ds : Nat))
  | _ =>
    let ds := signed.2.takeWhile Char.isDigit
    if ds.isEmpty then none else some (signed.1 * (decimalVal ds : Nat))

/-- An HTTP handler's observable outcome: status code plus the post-call
database and filesystem. -/
structure HandlerOutput where
  status : Nat
  db : DBState
  fs : FSState
deriving DecidableEq

/-- The tail of the `deleteReport` controller after id validation passed:
`validateReportExists` pre-check (404 when absent), then
`deleteReportCompletely`, mapping success to 200, `Report not found` to
404 and any other error to 500. -/
def deleteReportChecked (env : Env) (db : DBState) (fs : FSState)
    (reportId adminUserId : Nat) : HandlerOutput :=
  match validateReportExists db reportId with
  | none => ⟨404, db, fs⟩
  | some _ =>
    let out := deleteReportCompletely env db fs reportId adminUserId
    match out.result with
    | .ok _ => ⟨200, out.db, out.fs⟩
    | .err .reportNotFound => ⟨404, out.db, out.fs⟩
    | .err .failedToDeleteReport => ⟨500, out.db, out.fs⟩

/-- The `deleteReport` controller of `reportController.js`:
`const reportId = parseInt(id); if (isNaN(reportId) || reportId <= 0)`
return 400, otherwise proceed with the parsed id. -/
def deleteReportHandler (env : Env) (db : DBState) (fs : FSState)
    (idParam : String) (adminUserId : Nat) : HandlerOutput :=
  match jsParseInt idParam with
  | none => ⟨400, db, fs⟩
  | some n =>
    if n ≤ 0 then ⟨400, db, fs⟩
    else deleteReportChecked env db fs n.toNat adminUserId

/-- One entry of the bulk result's `successful` list. -/
structure BulkSuccessEntry where
  reportId : Nat
  deletedReport : Report
deriving DecidableEq

/-- One entry of the bulk result's `failed` list. -/
structure BulkFailEntry where
  reportId : Nat
  error : String
deriving DecidableEq

/-- The bulk result's `summary`. -/
structure BulkSummary where
  total : Nat
  successful : Nat
  failed : Nat
deriving DecidableEq

/-- The value returned by `DeletionService.bulkDeleteReports`. -/
structure BulkOutcome where
  successful : List BulkSuccessEntry
  failed : List BulkFailEntry
  summary : BulkSummary
deriving DecidableEq

/-- Accumulator of the bulk loop: the `results` and `errors` arrays plus
the threaded database and filesystem. -/
structure BulkAcc where
  results : List BulkSuccessEntry
  errors : List BulkFailEntry
  db : DBState
  fs : FSState
deriving DecidableEq

/-- The `for (const reportId of reportIds)` loop of
`DeletionService.bulkDeleteReports`: each id is passed to
`deleteReportCompletely` inside its own try/catch; a success is pushed to
`results`, a thrown error to `errors`, and the loop always continues. -/
def bulkLoop (env : Env) (adminUserId : Nat) :
    List Nat → BulkAcc → BulkAcc
  | [], acc => acc
  | reportId :: rest, acc =>
    let out := deleteReportCompletely env acc.db acc.fs reportId adminUserId
    match out.result with
    | .ok s =>
      bulkLoop env adminUserId rest
        ⟨acc.results ++ [⟨reportId, s.deletedReport⟩], acc.errors, out.db, out.fs⟩
    | .err e =>
      bulkLoop env adminUserId rest
        ⟨acc.results, acc.errors ++ [⟨reportId, errMessage e⟩], out.db, out.fs⟩

/-- `DeletionService.bulkDeleteReports(reportIds, adminUserId)`. -/
def bulkDeleteReports (env : Env) (db : DBState) (fs : FSState)
    (reportIds : List Nat) (adminUserId : Nat) :
    BulkOutcome × DBState × FSState :=
  let acc := bulkLoop env adminUserId reportIds ⟨[], [], db, fs⟩
  (⟨acc.results, acc.errors,
    ⟨reportIds.length, acc.results.length, acc.errors.length⟩⟩,
   acc.db, acc.fs)

/-- An element of the JSON `reportIds` array: either a JavaScript number
that is an integer, or any other value (a non-integer number, a string,
...) for which `Number.isInteger` is false. -/
inductive JsVal where
  | int (n : Int)
  | nonInt
deriving DecidableEq

/-- The controller's element validation `Number.isInteger(id) && id > 0`. -/
def isValidId : JsVal → Bool
  | .int n => n > 0
  | .nonInt => false

/-- Coerce a validated element to the Nat id it denotes. -/
def jsValToNat : JsVal → Nat
  | .int n => n.toNat
  | .nonInt => 0

/-- The `bulkDeleteReports` controller of `reportController.js`: 400 when
`reportIds` is not a non-empty array, 400 when some element is not a
positive integer, otherwise run the service-level bulk deletion and
return 200. -/
def bulkDeleteHandler (env : Env) (db : DBState) (fs : FSState)
    (reportIds : List JsVal) (adminUserId : Nat) : HandlerOutput :=
  if reportIds.isEmpty then ⟨400, db, fs⟩
  else
    let validIds := reportIds.filter isValidId
    if validIds.length != reportIds.length then ⟨400, db, fs⟩
    else
      let run := bulkDeleteReports env db fs (validIds.map jsValToNat) adminUserId
      ⟨200, run.2.1, run.2.2⟩

/-! ### Invariants of the cascade loop -/

/-- The cascade loop never touches the `reports` table. -/
theorem processTables_reports (cf : String → Bool) (rid : Nat) :
    ∀ (l : List RelatedTable) (res : DeletionResults) (db : DBState) (tr : List Event),
      (processTables cf rid l res db tr).2.1.reports = db.reports := by
  intro l
  induction l with
  | nil => intro res db tr; rfl
  | cons t rest ih =>
    intro res db tr
    simp only [processTables]
    split
    · exact ih _ _ _
    · split
      · exact ih _ _ _
      · exact ih _ _ _

/-- The cascade loop never changes which tables exist. -/
theorem processTables_existingTables (cf : String → Bool) (rid : Nat) :
    ∀ (l : List RelatedTable) (res : DeletionResults) (db : DBState) (tr : List Event),
      (processTables cf rid l res db tr).2.1.existingTables = db.existingTables := by
  intro l
  induction l with
  | nil => intro res db tr; rfl
  | cons t rest ih =>
    intro res db tr
    simp only [processTables]
    split
    · exact ih _ _ _
    · split
      · exact ih _ _ _
      · exact ih _ _ _

/-- The cascade loop never writes to `deletion_logs`. -/
theorem processTables_deletion_logs (cf : String → Bool) (rid : Nat) :
    ∀ (l : List RelatedTable) (res : DeletionResults) (db : DBState) (tr : List Event),
      (processTables cf rid l res db tr).2.1.deletion_logs = db.deletion_logs := by
  intro l
  induction l with
  | nil => intro res db tr; rfl
  | cons t rest ih =>
    intro res db tr
    simp only [processTables]
    split
    · exact ih _ _ _
    · split
      · exact ih _ _ _
      · exact ih _ _ _

/-- Skipped entries already accumulated are kept by the rest of the loop. -/
theorem processTables_skipped_mono (cf : String → Bool) (rid : Nat) (x : SkippedEntry) :
    ∀ (l : List RelatedTable) (res : DeletionResults) (db : DBState) (tr : List Event),
      x ∈ res.tablesSkipped → x ∈ (processTables cf rid l res db tr).1.tablesSkipped := by
  intro l
  induction l with
  | nil => intro res db tr hx; exact hx
  | cons t rest ih =>
    intro res db tr hx
    simp only [processTables]
    split
    · exact ih _ _ _ (List.mem_append_left _ hx)
    · split
      · exact ih _ _ _ hx
      · exact ih _ _ _ hx

/-- Error entries already accumulated are kept by the rest of the loop. -/
theorem processTables_errors_mono (cf : String → Bool) (rid : Nat) (x : ErrorEntry) :
    ∀ (l : List RelatedTable) (res : DeletionResults) (db : DBState) (tr : List Event),
      x ∈ res.errors → x ∈ (processTables cf rid l res db tr).1.errors := by
  intro l
  induction l with
  | nil => intro res db tr hx; exact hx
  | cons t rest ih =>
    intro res db tr hx
    simp only [processTables]
    split
    · exact ih _ _ _ hx
    · split
      · exact ih _ _ _ (List.mem_append_left _ hx)
      · exact ih _ _ _ hx

/-- Processed entries already accumulated are kept by the rest of the loop. -/
theorem processTables_processed_mono (cf : String → Bool) (rid : Nat) (x : ProcessedEntry) :
    ∀ (l : List RelatedTable) (res : DeletionResults) (db : DBState) (tr : List Event),
      x ∈ res.tablesProcessed → x ∈ (processTables cf rid l res db tr).1.tablesProcessed := by
  intro l
  induction l with
  | nil => intro res db tr hx; exact hx
  | cons t rest ih =>
    intro res db tr hx
    simp only [processTables]
    split
    · exact ih _ _ _ hx
    · split
      · exact ih _ _ _ hx
      · exact ih _ _ _ (List.mem_append_left _ hx)

/-- A listed table that is missing from the schema ends up in
`tablesSkipped` with reason `Table does not exist`. -/
theorem processTables_mem_skipped (cf : String → Bool) (rid : Nat) (t : RelatedTable) :
    ∀ (l : List RelatedTable) (res : DeletionResults) (db : DBState) (tr : List Event),
      t ∈ l → db.existingTables.contains t.name = false →
      (⟨t.name, "Table does not exist"⟩ : SkippedEntry) ∈
        (processTables cf rid l res db tr).1.tablesSkipped := by
  intro l
  induction l with
  | nil => intro res db tr h _; exact absurd h (List.not_mem_nil t)
  | cons u rest ih =>
    intro res db tr hmem hmiss
    rcases List.mem_cons.mp hmem with heq | htail
    · subst heq
      simp only [processTables, if_pos hmiss]
      exact processTables_skipped_mono cf rid _ rest _ db tr
        (List.mem_append_right _ (List.mem_singleton.mpr rfl))
    · simp only [processTables]
      split
      · exact ih _ _ _ htail hmiss
      · split
        · exact ih _ _ _ htail hmiss
        · exact ih _ _ _ htail hmiss

/-- A listed table that exists but whose delete throws ends up in
`errors`. -/
theorem processTables_mem_errors (cf : String → Bool) (rid : Nat) (t : RelatedTable) :
    ∀ (l : List RelatedTable) (res : DeletionResults) (db : DBState) (tr : List Event),
      t ∈ l → db.existingTables.contains t.name = true → cf t.name = true →
      (⟨t.name, "delete failed"⟩ : ErrorEntry) ∈
        (processTables cf rid l res db tr).1.errors := by
  intro l
  induction l with
  | nil => intro res db tr h _ _; exact absurd h (List.not_mem_nil t)
  | cons u rest ih =>
    intro res db tr hmem hex hcf
    rcases List.mem_cons.mp hmem with heq | htail
    · subst heq
      have h1 : ¬(db.existingTables.contains t.name = false) := by
        rw [hex]; exact fun hf => nomatch hf
      simp only [processTables, if_neg h1, if_pos hcf]
      exact processTables_errors_mono cf rid _ rest _ db tr
        (List.mem_append_right _ (List.mem_singleton.mpr rfl))
    · simp only [processTables]
      split
      · exact ih _ _ _ htail hex hcf
      · split
        · exact ih _ _ _ htail hex hcf
        · exact ih _ _ _ htail hex hcf

/-- Every processed entry comes from the accumulator or names a table that
exists in the schema. -/
theorem processTables_processed_src (cf : String → Bool) (rid : Nat) (e : ProcessedEntry) :
    ∀ (l : List RelatedTable) (res : DeletionResults) (db : DBState) (tr : List Event),
      e ∈ (processTables cf rid l res db tr).1.tablesProcessed →
      e ∈ res.tablesProcessed ∨ db.existingTables.contains e.table = true := by
  intro l
  induction l with
  | nil => intro res db tr h; exact .inl h
  | cons u rest ih =>
    intro res db tr h
    simp only [processTables] at h
    by_cases h1 : db.existingTables.contains u.name = false
    · rw [if_pos h1] at h
      have h3 := ih _ _ _ h
      exact h3
    · rw [if_neg h1] at h
      by_cases h2 : cf u.name
      · rw [if_pos h2] at h
        have h3 := ih _ _ _ h
        exact h3
      · rw [if_neg h2] at h
        rcases ih _ _ _ h with h' | h'
        · rcases List.mem_append.mp h' with h'' | h''
          · exact .inl h''
          · right
            have he : e.table = u.name := by
              rw [List.mem_singleton.mp h'']
            rw [he]
            simpa using h1
        · exact .inr h'

/-- Every error entry comes from the accumulator or names an existing table
whose delete threw. -/
theorem processTables_errors_src (cf : String → Bool) (rid : Nat) (e : ErrorEntry) :
    ∀ (l : List RelatedTable) (res : DeletionResults) (db : DBState) (tr : List Event),
      e ∈ (processTables cf rid l res db tr).1.errors →
      e ∈ res.errors ∨ (db.existingTables.contains e.table = true ∧ cf e.table = true) := by
  intro l
  induction l with
  | nil => intro res db tr h; exact .inl h
  | cons u rest ih =>
    intro res db tr h
    simp only [processTables] at h
    by_cases h1 : db.existingTables.contains u.name = false
    · rw [if_pos h1] at h
      have h3 := ih _ _ _ h
      exact h3
    · rw [if_neg h1] at h
      by_cases h2 : cf u.name
      · rw [if_pos h2] at h
        have h3 := ih _ _ _ h
        rcases h3 with h' | h'
        · rcases List.mem_append.mp h' with h'' | h''
          · exact .inl h''
          · right
            have he : e.table = u.name := by
              rw [List.mem_singleton.mp h'']
            rw [he]
            refine ⟨by simpa using h1, by simpa using h2⟩
        · exact .inr h'
      · rw [if_neg h2] at h
        have h3 := ih _ _ _ h
        exact h3

/-- Every listed table receives exactly one of the three outcome kinds: it
appears among the processed, skipped or errored table names. -/
theorem processTables_covers (cf : String → Bool) (rid : Nat) (t : RelatedTable) :
    ∀ (l : List RelatedTable) (res : DeletionResults) (db : DBState) (tr : List Event),
      t ∈ l →
      t.name ∈ (processTables cf rid l res db tr).1.tablesProcessed.map ProcessedEntry.table ∨
      t.name ∈ (processTables cf rid l res db tr).1.tablesSkipped.map SkippedEntry.table ∨
      t.name ∈ (processTables cf rid l res db tr).1.errors.map ErrorEntry.table := by
  intro l
  induction l with
  | nil => intro res db tr h; exact absurd h (List.not_mem_nil t)
  | cons u rest ih =>
    intro res db tr hmem
    rcases List.mem_cons.mp hmem with heq | htail
    · subst heq
      simp only [processTables]
      by_cases h1 : db.existingTables.contains t.name = false
      · rw [if_pos h1]
        right; left
        exact List.mem_map.mpr
          ⟨⟨t.name, "Table does not exist"⟩,
           processTables_skipped_mono cf rid _ rest _ db tr
             (List.mem_append_right _ (List.mem_singleton.mpr rfl)), rfl⟩
      · rw [if_neg h1]
        by_cases h2 : cf t.name
        · rw [if_pos h2]
          right; right
          exact List.mem_map.mpr
            ⟨⟨t.name, "delete failed"⟩,
             processTables_errors_mono cf rid _ rest _ db tr
               (List.mem_append_right _ (List.mem_singleton.mpr rfl)), rfl⟩
        · rw [if_neg h2]
          left
          exact List.mem_map.mpr
            ⟨⟨t.name, _⟩,
             processTables_processed_mono cf rid _ rest _ _ _
               (List.mem_append_right _ (List.mem_singleton.mpr rfl)), rfl⟩
    · simp only [processTables]
      split
      · exact ih _ _ _ htail
      · split
        · exact ih _ _ _ htail
        · exact ih _ _ _ htail

/-! ### Trace lemmas -/

/-- The cascade loop only ever appends `auxDelete` events. -/
theorem processTables_trace_src (cf : String → Bool) (rid : Nat) (e : Event) :
    ∀ (l : List RelatedTable) (res : DeletionResults) (db : DBState) (tr : List Event),
      e ∈ (processTables cf rid l res db tr).2.2 →
      e ∈ tr ∨ ∃ u, e = Event.auxDelete u := by
  intro l
  induction l with
  | nil => intro res db tr h; exact .inl h
  | cons u rest ih =>
    intro res db tr h
    simp only [processTables] at h
    by_cases h1 : db.existingTables.contains u.name = false
    · rw [if_pos h1] at h
      exact ih _ _ _ h
    · rw [if_neg h1] at h
      by_cases h2 : cf u.name
      · rw [if_pos h2] at h
        exact ih _ _ _ h
      · rw [if_neg h2] at h
        rcases ih _ _ _ h with h' | h'
        · rcases List.mem_append.mp h' with h'' | h''
          · exact .inl h''
          · exact .inr ⟨u.name, List.mem_singleton.mp h''⟩
        · exact .inr h'

/-- The file-cleanup loop only ever appends `fsUnlink` events. -/
theorem unlinkFiles_trace_src (ff : String → Bool) (e : Event) :
    ∀ (l : List String) (fs : FSState) (tr : List Event),
      e ∈ (unlinkFiles ff l fs tr).2 → e ∈ tr ∨ ∃ p, e = Event.fsUnlink p := by
  intro l
  induction l with
  | nil => intro fs tr h; exact .inl h
  | cons p rest ih =>
    intro fs tr h
    simp only [unlinkFiles] at h
    by_cases h1 : fs.contains p
    · rw [if_pos h1] at h
      by_cases h2 : ff p
      · rw [if_pos h2] at h
        exact ih _ _ h
      · rw [if_neg h2] at h
        rcases ih _ _ h with h' | h'
        · rcases List.mem_append.mp h' with h'' | h''
          · exact .inl h''
          · exact .inr ⟨p, List.mem_singleton.mp h''⟩
        · exact .inr h'
    · rw [if_neg h1] at h
      exact ih _ _ h

/-- The audit step emits at most an `auditInsert` event. -/
theorem logDeletionAction_trace_src (af : Bool) (db : DBState) (rid : Nat)
    (r : Report) (aid : Nat) (e : Event) :
    e ∈ (logDeletionAction af db rid r aid).2 → e = Event.auditInsert := by
  intro h
  by_cases haf : af = true
  · simp [logDeletionAction, haf] at h
  · simp [logDeletionAction, haf] at h
    exact h

/-- `dropWhile` jumps over a block all of whose elements satisfy the
predicate. -/
theorem dropWhile_append_of_all {α : Type} (p : α → Bool) (l₁ l₂ : List α)
    (h : ∀ e ∈ l₁, p e = true) :
    (l₁ ++ l₂).dropWhile p = l₂.dropWhile p := by
  induction l₁ with
  | nil => rfl
  | cons a rest ih =>
    have ha : p a = true := h a (List.mem_cons_self a rest)
    simp only [List.cons_append, List.dropWhile_cons, ha, if_pos]
    exact ih (fun e he => h e (List.mem_cons_of_mem a he))

/-- A value none of whose occurrences can be in a list has count zero. -/
theorem count_eq_zero_of_src {α : Type} [DecidableEq α] (a : α) (l : List α)
    (h : a ∉ l) : l.count a = 0 :=
  List.count_eq_zero.mpr h

/-! ### The success path of `deleteReportCompletely` -/

/-- When the fetch finds the report and no concurrent deletion steals the
row delete, `deleteReportCompletely` succeeds and returns the fetched
report together with the cascade outcome, commits the cascade and the
row deletion, and runs the audit step on the post-deletion state. -/
theorem deleteReport_success_struct (env : Env) (db : DBState) (fs : FSState)
    (rid aid : Nat) (r : Report)
    (hfind : db.reports.find? (fun x => x.id == rid) = some r)
    (hwins : env.concurrentDeleteWins = false) :
    deleteReportCompletely env db fs rid aid =
      ⟨.ok ⟨r, (deleteFromAllRelatedTables env.cascadeFails db rid).1⟩,
       (logDeletionAction env.auditFails
         { (deleteFromAllRelatedTables env.cascadeFails db rid).2.1 with
             reports := db.reports.filter (fun x => !(x.id == rid)) }
         rid r aid).1,
       (deleteAssociatedFiles env.fileFails fs r).1,
       [Event.acquire, Event.beginTx] ++ (deleteAssociatedFiles env.fileFails fs r).2 ++
         (deleteFromAllRelatedTables env.cascadeFails db rid).2.2 ++ [Event.reportDelete] ++
         (logDeletionAction env.auditFails
           { (deleteFromAllRelatedTables env.cascadeFails db rid).2.1 with
               reports := db.reports.filter (fun x => !(x.id == rid)) }
           rid r aid).2 ++ [Event.commit, Event.release]⟩ := by
  have hrep : (deleteFromAllRelatedTables env.cascadeFails db rid).2.1.reports = db.reports :=
    processTables_reports env.cascadeFails rid relatedTables _ db []
  have hmem : r ∈ db.reports := List.mem_of_find?_eq_some hfind
  have hr := List.find?_some hfind
  have hne : db.reports.filter (fun x => x.id == rid) ≠ [] :=
    List.ne_nil_of_mem (List.mem_filter.mpr ⟨hmem, hr⟩)
  have hfe : (db.reports.filter (fun x => x.id == rid)).isEmpty = false :=
    List.isEmpty_eq_false.mpr hne
  simp [deleteReportCompletely, hfind, hwins, hrep, hfe]

/-! ### The failure paths of `deleteReportCompletely` -/

/-- When the fetch finds no row, the run throws `Report not found`, rolls
back, and leaves database and filesystem untouched. -/
theorem deleteReport_notFound_struct (env : Env) (db : DBState) (fs : FSState)
    (rid aid : Nat) (hfind : db.reports.find? (fun x => x.id == rid) = none) :
    deleteReportCompletely env db fs rid aid =
      ⟨.err .reportNotFound, db, fs,
       [Event.acquire, Event.beginTx, Event.rollback, Event.release]⟩ := by
  simp [deleteReportCompletely, hfind]

/-- When a concurrent deletion wins the race, the row delete affects zero
rows, the run throws `Failed to delete report` and rolls the database back
— but the filesystem deletions already performed stay. -/
theorem deleteReport_conflict_struct (env : Env) (db : DBState) (fs : FSState)
    (rid aid : Nat) (r : Report)
    (hfind : db.reports.find? (fun x => x.id == rid) = some r)
    (hwins : env.concurrentDeleteWins = true) :
    deleteReportCompletely env db fs rid aid =
      ⟨.err .failedToDeleteReport, db, (deleteAssociatedFiles env.fileFails fs r).1,
       [Event.acquire, Event.beginTx] ++ (deleteAssociatedFiles env.fileFails fs r).2 ++
         (deleteFromAllRelatedTables env.cascadeFails db rid).2.2 ++
         [Event.reportDelete] ++ [Event.rollback, Event.release]⟩ := by
  simp [deleteReportCompletely, hfind, hwins, List.append_assoc]

/-- The result and post-run database of `deleteReportCompletely` do not
depend on which filesystem unlinks fail. -/
theorem deleteReport_fileFails_indep (env : Env) (f : String → Bool)
    (db : DBState) (fs : FSState) (rid aid : Nat) :
    (deleteReportCompletely { env with fileFails := f } db fs rid aid).result =
      (deleteReportCompletely env db fs rid aid).result ∧
    (deleteReportCompletely { env with fileFails := f } db fs rid aid).db =
      (deleteReportCompletely env db fs rid aid).db := by
  cases hfind : db.reports.find? (fun x : Report => x.id == rid) with
  | none =>
    rw [deleteReport_notFound_struct { env with fileFails := f } db fs rid aid hfind,
      deleteReport_notFound_struct env db fs rid aid hfind]
    exact ⟨rfl, rfl⟩
  | some r =>
    by_cases hw : env.concurrentDeleteWins = true
    · rw [deleteReport_conflict_struct { env with fileFails := f } db fs rid aid r hfind hw,
        deleteReport_conflict_struct env db fs rid aid r hfind hw]
      exact ⟨rfl, rfl⟩
    · have hw' : env.concurrentDeleteWins = false := by
        revert hw; cases env.concurrentDeleteWins <;> simp
      rw [deleteReport_success_struct { env with fileFails := f } db fs rid aid r hfind hw',
        deleteReport_success_struct env db fs rid aid r hfind hw']
      exact ⟨rfl, rfl⟩

/-! ### File deletions relative to the commit point -/

/-- Whether an event is a filesystem unlink. -/
def isFsUnlink : Event → Bool
  | .fsUnlink _ => true
  | _ => false

/-- The filesystem unlink events that occur at or after the first `commit`
event of a trace. -/
def fsUnlinkFromFirstCommit (t : List Event) : List Event :=
  (t.dropWhile (fun e => !(e == Event.commit))).filter isFsUnlink

/-- A list all of whose elements satisfy the predicate is fully consumed
by `dropWhile`. -/
theorem dropWhile_eq_nil_of_all {α : Type} (p : α → Bool) (l : List α)
    (h : ∀ e ∈ l, p e = true) : l.dropWhile p = [] := by
  induction l with
  | nil => rfl
  | cons a rest ih =>
    simp only [List.dropWhile_cons, h a (List.mem_cons_self a rest), if_pos]
    exact ih fun e he => h e (List.mem_cons_of_mem a he)

/-- File cleanup emits no event other than `fsUnlink`. -/
theorem files_trace_count (ff : String → Bool) (fs : FSState) (r : Report)
    (e : Event) (he : ∀ p, e ≠ Event.fsUnlink p) :
    ((deleteAssociatedFiles ff fs r).2).count e = 0 :=
  count_eq_zero_of_src e _ fun h => by
    rcases unlinkFiles_trace_src ff e (filesToDelete r) fs [] h with h' | ⟨p, hp⟩
    · exact List.not_mem_nil e h'
    · exact he p hp

/-- The cascade emits no event other than `auxDelete`. -/
theorem cascade_trace_count (cf : String → Bool) (db : DBState) (rid : Nat)
    (e : Event) (he : ∀ u, e ≠ Event.auxDelete u) :
    ((deleteFromAllRelatedTables cf db rid).2.2).count e = 0 :=
  count_eq_zero_of_src e _ fun h => by
    rcases processTables_trace_src cf rid e relatedTables _ db [] h with h' | ⟨u, hu⟩
    · exact List.not_mem_nil e h'
    · exact he u hu

/-- The audit step emits no event other than `auditInsert`. -/
theorem audit_trace_count (af : Bool) (db : DBState) (rid : Nat) (r : Report)
    (aid : Nat) (e : Event) (he : e ≠ Event.auditInsert) :
    ((logDeletionAction af db rid r aid).2).count e = 0 :=
  count_eq_zero_of_src e _ fun h => he (logDeletionAction_trace_src af db rid r aid e h)

/-! ### Lemmas on the bulk loop -/

/-- The bulk loop over a concatenation is the loop over the first part
followed by the loop over the second, carrying the intermediate state:
each id is processed independently, and neither a success nor a failure on
an earlier id blocks or rewinds the later ids. -/
theorem bulkLoop_append (env : Env) (aid : Nat) :
    ∀ (xs ys : List Nat) (acc : BulkAcc),
      bulkLoop env aid (xs ++ ys) acc = bulkLoop env aid ys (bulkLoop env aid xs acc) := by
  intro xs
  induction xs with
  | nil => intro ys acc; rfl
  | cons x rest ih =>
    intro ys acc
    simp only [List.cons_append, bulkLoop]
    cases (deleteReportCompletely env acc.db acc.fs x aid).result with
    | ok s => exact ih ys _
    | err e => exact ih ys _

/-- Each id processed by the bulk loop adds exactly one entry, to
`results` or to `errors`. -/
theorem bulkLoop_length (env : Env) (aid : Nat) :
    ∀ (ids : List Nat) (acc : BulkAcc),
      (bulkLoop env aid ids acc).results.length + (bulkLoop env aid ids acc).errors.length =
        acc.results.length + acc.errors.length + ids.length := by
  intro ids
  induction ids with
  | nil => intro acc; simp [bulkLoop]
  | cons x rest ih =>
    intro acc
    simp only [bulkLoop]
    cases (deleteReportCompletely env acc.db acc.fs x aid).result with
    | ok s =>
      rw [ih]
      simp only [List.length_append, List.length_cons, List.length_nil]
      omega
    | err e =>
      rw [ih]
      simp only [List.length_append, List.length_cons, List.length_nil]
      omega

/-! ### Sample fixtures used by witnesses and counterexamples -/

/-- A present report with an image asset. -/
def sampleReport : Report := ⟨1, some "/uploads/x.jpg", none, 5, "oil_spill", 100⟩

/-- A database containing `sampleReport`, two auxiliary rows, a schema in
which only `map_markers` and `analytics` exist, and an empty audit table. -/
def sampleDB : DBState :=
  ⟨[sampleReport], [("map_markers", 1), ("analytics", 1)],
   ["map_markers", "analytics"], [], false⟩

/-- A filesystem containing the sample report's image asset. -/
def sampleFS : FSState := ["uploads/x.jpg"]

/-- The fault-free environment. -/
def envNoFault : Env := ⟨fun _ => false, false, fun _ => false, false⟩

/-- An environment in which the audit insert throws. -/
def envAuditFail : Env := ⟨fun _ => false, true, fun _ => false, false⟩

/-- An environment in which a concurrent deletion wins the row-delete
race. -/
def envRace : Env := ⟨fun _ => false, false, fun _ => false, true⟩

/-- An environment in which the cascade delete against `analytics`
throws. -/
def envCascadeFail : Env := ⟨fun t => t == "analytics", false, fun _ => false, false⟩

/-- A non-`commit` event satisfies the `dropWhile` predicate used by
`fsUnlinkFromFirstCommit`. -/
theorem not_commit_true {e : Event} (h : e ≠ Event.commit) :
    (!(e == Event.commit)) = true := by
  simp [h]

/-- No run of `deleteReportCompletely` performs a filesystem unlink at or
after its commit point: all file deletion happens inside the transaction
window, before `COMMIT`. -/
theorem deleteReport_no_unlink_from_commit (env : Env) (db : DBState)
    (fs : FSState) (rid aid : Nat) :
    fsUnlinkFromFirstCommit (deleteReportCompletely env db fs rid aid).trace = [] := by
  cases hfind : db.reports.find? (fun x : Report => x.id == rid) with
  | none =>
    rw [deleteReport_notFound_struct env db fs rid aid hfind]
    rfl
  | some r =>
    have hFr : Event.commit ∉ (deleteAssociatedFiles env.fileFails fs r).2 := by
      intro h
      rcases unlinkFiles_trace_src env.fileFails Event.commit (filesToDelete r) fs [] h with h' | ⟨p, hp⟩
      · exact List.not_mem_nil _ h'
      · exact Event.noConfusion hp
    have hCr : Event.commit ∉ (deleteFromAllRelatedTables env.cascadeFails db rid).2.2 := by
      intro h
      rcases processTables_trace_src env.cascadeFails rid Event.commit relatedTables _ db [] h with h' | ⟨u, hu⟩
      · exact List.not_mem_nil _ h'
      · exact Event.noConfusion hu
    by_cases hw : env.concurrentDeleteWins = true
    · rw [deleteReport_conflict_struct env db fs rid aid r hfind hw]
      unfold fsUnlinkFromFirstCommit
      rw [dropWhile_eq_nil_of_all _ _ ?side]
      · rfl
      case side =>
        intro e he
        refine not_commit_true fun hec => ?_
        subst hec
        simp only [List.append_assoc, List.mem_append] at he
        rcases he with he | he | he | he
        · exact absurd he (by decide)
        · exact hFr he
        · exact hCr he
        · exact absurd he (by decide)
    · have hw' : env.concurrentDeleteWins = false := by
        revert hw; cases env.concurrentDeleteWins <;> simp
      rw [deleteReport_success_struct env db fs rid aid r hfind hw']
      unfold fsUnlinkFromFirstCommit
      rw [dropWhile_append_of_all (fun e => !(e == Event.commit)) _ [Event.commit, Event.release] ?side]
      · rfl
      case side =>
        intro e he
        refine not_commit_true fun hec => ?_
        subst hec
        simp only [List.append_assoc, List.mem_append] at he
        rcases he with he | he | he | he | he
        · exact absurd he (by decide)
        · exact hFr he
        · exact hCr he
        · exact absurd he (by decide)
        · exact Event.noConfusion (logDeletionAction_trace_src _ _ _ _ _ _ he)

/-- The id-validation rejection path of the `deleteReport` controller:
`parseInt` yielding `NaN` or a non-positive value returns 400 with no
storage touched. -/
theorem deleteReportHandler_invalid (env : Env) (db : DBState) (fs : FSState)
    (s : String) (aid : Nat)
    (h : jsParseInt s = none ∨ ∃ n, jsParseInt s = some n ∧ n ≤ 0) :
    deleteReportHandler env db fs s aid = ⟨400, db, fs⟩ := by
  rcases h with hnone | ⟨n, hn, hle⟩
  · simp [deleteReportHandler, hnone]
  · simp [deleteReportHandler, hn, if_pos hle]

/-! ### Claims -/

/-- C1, counterexample: with the audit insert failing, the deletion of the
present report 1 still succeeds, the `reports` row is gone, and no audit
row was written — refuting the claim that an audit-write failure rolls the
whole transaction back and leaves the report present. -/
theorem C1_counterexample :
    ((deleteReportCompletely envAuditFail sampleDB sampleFS 1 7).result).isOk = true ∧
    (deleteReportCompletely envAuditFail sampleDB sampleFS 1 7).db.reports = [] ∧
    (deleteReportCompletely envAuditFail sampleDB sampleFS 1 7).db.deletion_logs = [] :=
  ⟨rfl, rfl, rfl⟩

/-- C1 (amended): a failure of the `DeletionLog` audit write inside
`deleteReport` is caught and swallowed: the transaction still commits, the
report row is deleted, the operation succeeds, and no audit row is
written. -/
theorem C1_audit_failure_swallowed (env : Env) (db : DBState) (fs : FSState)
    (rid aid : Nat) (r : Report)
    (hfind : db.reports.find? (fun x => x.id == rid) = some r)
    (haf : env.auditFails = true)
    (hwins : env.concurrentDeleteWins = false) :
    ((deleteReportCompletely env db fs rid aid).result).isOk = true ∧
    (deleteReportCompletely env db fs rid aid).db.reports =
      db.reports.filter (fun x => !(x.id == rid)) ∧
    (deleteReportCompletely env db fs rid aid).db.deletion_logs = db.deletion_logs ∧
    Event.commit ∈ (deleteReportCompletely env db fs rid aid).trace := by
  rw [deleteReport_success_struct env db fs rid aid r hfind hwins]
  refine ⟨rfl, ?_, ?_, ?_⟩
  · simp [logDeletionAction, haf]
  · simp only [logDeletionAction, haf]
    exact processTables_deletion_logs env.cascadeFails rid relatedTables _ db []
  · simp

/-- C1, witness: the amended claim applied to the sample database with a
failing audit insert. -/
theorem C1_witness :
    ((deleteReportCompletely envAuditFail sampleDB sampleFS 1 7).result).isOk = true ∧
    (deleteReportCompletely envAuditFail sampleDB sampleFS 1 7).db.reports =
      sampleDB.reports.filter (fun x => !(x.id == 1)) ∧
    (deleteReportCompletely envAuditFail sampleDB sampleFS 1 7).db.deletion_logs =
      sampleDB.deletion_logs ∧
    Event.commit ∈ (deleteReportCompletely envAuditFail sampleDB sampleFS 1 7).trace :=
  C1_audit_failure_swallowed envAuditFail sampleDB sampleFS 1 7 sampleReport rfl rfl rfl

/-- C2, counterexample: in a fault-free successful run, the image asset is
unlinked strictly before the first `commit` event of the trace, refuting
the claim that filesystem deletion happens only after the transaction
commits. -/
theorem C2_counterexample :
    ((deleteReportCompletely envNoFault sampleDB sampleFS 1 7).trace.takeWhile
      (fun e => !(e == Event.commit))).contains (Event.fsUnlink "uploads/x.jpg") = true ∧
    (deleteReportCompletely envNoFault sampleDB sampleFS 1 7).trace.contains
      Event.commit = true :=
  ⟨rfl, rfl⟩

/-- C2 (amended): within every `deleteReport` execution, filesystem
deletion of the report's assets happens inside the transaction window,
before commit (never at or after a `commit` event); and a file-cleanup
failure never affects the result or the committed database state. -/
theorem C2_files_inside_transaction :
    (∀ (env : Env) (db : DBState) (fs : FSState) (rid aid : Nat),
      fsUnlinkFromFirstCommit (deleteReportCompletely env db fs rid aid).trace = []) ∧
    (∀ (env : Env) (f : String → Bool) (db : DBState) (fs : FSState) (rid aid : Nat),
      (deleteReportCompletely { env with fileFails := f } db fs rid aid).result =
        (deleteReportCompletely env db fs rid aid).result ∧
      (deleteReportCompletely { env with fileFails := f } db fs rid aid).db =
        (deleteReportCompletely env db fs rid aid).db) :=
  ⟨deleteReport_no_unlink_from_commit, deleteReport_fileFails_indep⟩

/-- C3, counterexample: when a concurrent deletion wins the race, the
report-row delete affects zero rows and the operation fails with the
generic `Failed to delete report` error, which the controller surfaces as
HTTP 500 — not as a ConflictError/409 as the claim states. -/
theorem C3_counterexample :
    (deleteReportCompletely envRace sampleDB sampleFS 1 7).result =
      DeleteResult.err DelErr.failedToDeleteReport ∧
    (deleteReportHandler envRace sampleDB sampleFS "1" 7).status = 500 :=
  ⟨rfl, rfl⟩

/-- C3 (amended): if the fetch succeeds and the report-row delete affects
zero rows, the operation fails with the generic `Failed to delete report`
error (surfaced by the controller as HTTP 500, not as a Conflict/409), and
the transaction is rolled back; and this is the only failure path
reachable after the fetch succeeds and before commit — with no concurrent
winner the run always succeeds. -/
theorem C3_zero_row_delete (env : Env) (db : DBState) (fs : FSState)
    (rid aid : Nat) (r : Report)
    (hfind : db.reports.find? (fun x => x.id == rid) = some r) :
    (env.concurrentDeleteWins = true →
      (deleteReportCompletely env db fs rid aid).result =
        DeleteResult.err DelErr.failedToDeleteReport ∧
      (deleteReportCompletely env db fs rid aid).db = db ∧
      Event.rollback ∈ (deleteReportCompletely env db fs rid aid).trace ∧
      (deleteReportChecked env db fs rid aid).status = 500) ∧
    (env.concurrentDeleteWins = false →
      ((deleteReportCompletely env db fs rid aid).result).isOk = true) := by
  constructor
  · intro hw
    refine ⟨?_, ?_, ?_, ?_⟩
    · rw [deleteReport_conflict_struct env db fs rid aid r hfind hw]
    · rw [deleteReport_conflict_struct env db fs rid aid r hfind hw]
    · rw [deleteReport_conflict_struct env db fs rid aid r hfind hw]
      simp
    · simp only [deleteReportChecked, validateReportExists, hfind]
      rw [deleteReport_conflict_struct env db fs rid aid r hfind hw]
  · intro hw'
    rw [deleteReport_success_struct env db fs rid aid r hfind hw']
    rfl

/-- C3, witness: the amended claim applied to the sample database under a
lost race. -/
theorem C3_witness :
    (deleteReportCompletely envRace sampleDB sampleFS 1 7).result =
      DeleteResult.err DelErr.failedToDeleteReport ∧
    (deleteReportCompletely envRace sampleDB sampleFS 1 7).db = sampleDB ∧
    Event.rollback ∈ (deleteReportCompletely envRace sampleDB sampleFS 1 7).trace ∧
    (deleteReportChecked envRace sampleDB sampleFS 1 7).status = 500 :=
  (C3_zero_row_delete envRace sampleDB sampleFS 1 7 sampleReport rfl).1 rfl

/-- C4: for a `reportId` with no matching `reports` row, the service run
throws `Report not found`, rolls back with database and filesystem exactly
as before, creates no `deletion_logs` row, and the controller answers
404 with no storage change. -/
theorem C4_not_found (env : Env) (db : DBState) (fs : FSState) (rid aid : Nat)
    (hfind : db.reports.find? (fun x => x.id == rid) = none) :
    deleteReportCompletely env db fs rid aid =
      ⟨DeleteResult.err DelErr.reportNotFound, db, fs,
       [Event.acquire, Event.beginTx, Event.rollback, Event.release]⟩ ∧
    (deleteReportCompletely env db fs rid aid).db.deletion_logs = db.deletion_logs ∧
    deleteReportChecked env db fs rid aid = ⟨404, db, fs⟩ := by
  refine ⟨deleteReport_notFound_struct env db fs rid aid hfind, ?_, ?_⟩
  · rw [deleteReport_notFound_struct env db fs rid aid hfind]
  · simp only [deleteReportChecked, validateReportExists, hfind]

/-- C4, witness: report 2 is absent from the sample database. -/
theorem C4_witness :
    deleteReportCompletely envNoFault sampleDB sampleFS 2 7 =
      ⟨DeleteResult.err DelErr.reportNotFound, sampleDB, sampleFS,
       [Event.acquire, Event.beginTx, Event.rollback, Event.release]⟩ ∧
    (deleteReportCompletely envNoFault sampleDB sampleFS 2 7).db.deletion_logs =
      sampleDB.deletion_logs ∧
    deleteReportChecked envNoFault sampleDB sampleFS 2 7 = ⟨404, sampleDB, sampleFS⟩ :=
  C4_not_found envNoFault sampleDB sampleFS 2 7 rfl

/-- C5: an allow-listed auxiliary table missing from the schema is
recorded as skipped with reason `Table does not exist` — never as
processed and never as an error — and the deletion still succeeds. -/
theorem C5_missing_table_skipped (env : Env) (db : DBState) (fs : FSState)
    (rid aid : Nat) (r : Report) (t : RelatedTable)
    (hfind : db.reports.find? (fun x => x.id == rid) = some r)
    (hwins : env.concurrentDeleteWins = false)
    (ht : t ∈ relatedTables)
    (hmiss : db.existingTables.contains t.name = false) :
    ∃ s : DeleteSuccess,
      (deleteReportCompletely env db fs rid aid).result = DeleteResult.ok s ∧
      (⟨t.name, "Table does not exist"⟩ : SkippedEntry) ∈ s.deletionResults.tablesSkipped ∧
      (∀ e ∈ s.deletionResults.tablesProcessed, e.table ≠ t.name) ∧
      (∀ e ∈ s.deletionResults.errors, e.table ≠ t.name) := by
  rw [deleteReport_success_struct env db fs rid aid r hfind hwins]
  refine ⟨⟨r, (deleteFromAllRelatedTables env.cascadeFails db rid).1⟩, rfl, ?_, ?_, ?_⟩
  · exact processTables_mem_skipped env.cascadeFails rid t relatedTables _ db [] ht hmiss
  · intro e he hteq
    rcases processTables_processed_src env.cascadeFails rid e relatedTables _ db [] he with h' | h'
    · exact List.not_mem_nil e h'
    · rw [hteq] at h'
      exact Bool.noConfusion (h'.symm.trans hmiss)
  · intro e he hteq
    rcases processTables_errors_src env.cascadeFails rid e relatedTables _ db [] he with h' | ⟨h1, _⟩
    · exact List.not_mem_nil e h'
    · rw [hteq] at h1
      exact Bool.noConfusion (h1.symm.trans hmiss)

/-- C5, witness: `analytics_daily` is allow-listed but absent from the
sample schema. -/
theorem C5_witness :
    ∃ s : DeleteSuccess,
      (deleteReportCompletely envNoFault sampleDB sampleFS 1 7).result = DeleteResult.ok s ∧
      (⟨"analytics_daily", "Table does not exist"⟩ : SkippedEntry) ∈
        s.deletionResults.tablesSkipped ∧
      (∀ e ∈ s.deletionResults.tablesProcessed, e.table ≠ "analytics_daily") ∧
      (∀ e ∈ s.deletionResults.errors, e.table ≠ "analytics_daily") :=
  C5_missing_table_skipped envNoFault sampleDB sampleFS 1 7 sampleReport
    ⟨"analytics_daily", "Daily analytics data"⟩ rfl rfl (by decide) rfl

/-- C6: a cascade delete that throws against an existing auxiliary table
is recorded as a `delete failed` error for that table, every listed table
still receives an outcome, and the overall deletion succeeds. -/
theorem C6_cascade_failure_tolerated (env : Env) (db : DBState) (fs : FSState)
    (rid aid : Nat) (r : Report) (t : RelatedTable)
    (hfind : db.reports.find? (fun x => x.id == rid) = some r)
    (hwins : env.concurrentDeleteWins = false)
    (ht : t ∈ relatedTables)
    (hex : db.existingTables.contains t.name = true)
    (hcf : env.cascadeFails t.name = true) :
    ∃ s : DeleteSuccess,
      (deleteReportCompletely env db fs rid aid).result = DeleteResult.ok s ∧
      (⟨t.name, "delete failed"⟩ : ErrorEntry) ∈ s.deletionResults.errors ∧
      (∀ u ∈ relatedTables,
        u.name ∈ s.deletionResults.tablesProcessed.map ProcessedEntry.table ∨
        u.name ∈ s.deletionResults.tablesSkipped.map SkippedEntry.table ∨
        u.name ∈ s.deletionResults.errors.map ErrorEntry.table) := by
  rw [deleteReport_success_struct env db fs rid aid r hfind hwins]
  refine ⟨⟨r, (deleteFromAllRelatedTables env.cascadeFails db rid).1⟩, rfl, ?_, ?_⟩
  · exact processTables_mem_errors env.cascadeFails rid t relatedTables _ db [] ht hex hcf
  · intro u hu
    exact processTables_covers env.cascadeFails rid u relatedTables _ db [] hu

/-- C6, witness: the cascade delete against the existing `analytics`
table throws in `envCascadeFail`. -/
theorem C6_witness :
    ∃ s : DeleteSuccess,
      (deleteReportCompletely envCascadeFail sampleDB sampleFS 1 7).result =
        DeleteResult.ok s ∧
      (⟨"analytics", "delete failed"⟩ : ErrorEntry) ∈ s.deletionResults.errors ∧
      (∀ u ∈ relatedTables,
        u.name ∈ s.deletionResults.tablesProcessed.map ProcessedEntry.table ∨
        u.name ∈ s.deletionResults.tablesSkipped.map SkippedEntry.table ∨
        u.name ∈ s.deletionResults.errors.map ErrorEntry.table) :=
  C6_cascade_failure_tolerated envCascadeFail sampleDB sampleFS 1 7 sampleReport
    ⟨"analytics", "Analytics data"⟩ rfl rfl (by decide) rfl rfl

/-- C7: bulk deletion processes each id independently — the loop over a
concatenation is the loop over the first part followed by the loop over
the rest from the carried state, so no failure rolls back or blocks other
ids — and the outcome always satisfies
`successful.length + failed.length = summary.total = |reportIds|`. -/
theorem C7_bulk_independent :
    (∀ (env : Env) (db : DBState) (fs : FSState) (ids : List Nat) (aid : Nat),
      (bulkDeleteReports env db fs ids aid).1.summary.total = ids.length ∧
      (bulkDeleteReports env db fs ids aid).1.summary.successful =
        (bulkDeleteReports env db fs ids aid).1.successful.length ∧
      (bulkDeleteReports env db fs ids aid).1.summary.failed =
        (bulkDeleteReports env db fs ids aid).1.failed.length ∧
      (bulkDeleteReports env db fs ids aid).1.successful.length +
        (bulkDeleteReports env db fs ids aid).1.failed.length = ids.length) ∧
    (∀ (env : Env) (aid : Nat) (xs ys : List Nat) (acc : BulkAcc),
      bulkLoop env aid (xs ++ ys) acc = bulkLoop env aid ys (bulkLoop env aid xs acc)) := by
  constructor
  · intro env db fs ids aid
    refine ⟨rfl, rfl, rfl, ?_⟩
    have h := bulkLoop_length env aid ids ⟨[], [], db, fs⟩
    simpa using h
  · intro env aid xs ys acc
    exact bulkLoop_append env aid xs ys acc

/-- C8: a non-positive single-delete id, an empty bulk list, and a bulk
list containing a non-positive-integer element are all rejected with 400
before any deletion work, leaving database and filesystem untouched. -/
theorem C8_validation_fast_fail :
    (∀ (env : Env) (db : DBState) (fs : FSState) (s : String) (aid : Nat),
      (jsParseInt s = none ∨ ∃ n, jsParseInt s = some n ∧ n ≤ 0) →
      deleteReportHandler env db fs s aid = ⟨400, db, fs⟩) ∧
    (∀ (env : Env) (db : DBState) (fs : FSState) (ids : List JsVal) (aid : Nat),
      (ids = [] ∨ ∃ v ∈ ids, isValidId v = false) →
      bulkDeleteHandler env db fs ids aid = ⟨400, db, fs⟩) := by
  constructor
  · intro env db fs s aid h
    exact deleteReportHandler_invalid env db fs s aid h
  · intro env db fs ids aid h
    rcases h with hnil | ⟨v, hv, hval⟩
    · subst hnil; rfl
    · have hne : ids.isEmpty = false := by
        cases ids with
        | nil => exact absurd hv (List.not_mem_nil v)
        | cons a l => rfl
      have hlen : (ids.filter isValidId).length ≠ ids.length := by
        intro heq
        have hall := List.filter_length_eq_length.mp heq v hv
        exact Bool.noConfusion (hval.symm.trans hall)
      have hbne : ((ids.filter isValidId).length != ids.length) = true :=
        bne_iff_ne.mpr hlen
      simp [bulkDeleteHandler, hne, hbne]

/-- C8, witness: `deleteReport("-1")` and `deleteMany([])` are both
rejected with 400 and unchanged storage. -/
theorem C8_witness :
    deleteReportHandler envNoFault sampleDB sampleFS "-1" 7 =
      ⟨400, sampleDB, sampleFS⟩ ∧
    bulkDeleteHandler envNoFault sampleDB sampleFS [] 7 =
      ⟨400, sampleDB, sampleFS⟩ :=
  ⟨C8_validation_fast_fail.1 envNoFault sampleDB sampleFS "-1" 7
      (Or.inr ⟨-1, by decide, by decide⟩),
   C8_validation_fast_fail.2 envNoFault sampleDB sampleFS [] 7 (Or.inl rfl)⟩

/-- C10: id validation of the single-delete controller is integer-prefix
parsing — whenever `parseInt` of the request id yields a positive value
`n`, validation passes and the handler proceeds to delete report `n`
(even for inputs like `3.7` or `12abc`); only a `NaN` or non-positive
parse is rejected with 400. -/
theorem C10_parseInt_prefix_validation :
    (∀ (env : Env) (db : DBState) (fs : FSState) (aid : Nat) (s : String) (n : Int),
      jsParseInt s = some n → 0 < n →
      deleteReportHandler env db fs s aid = deleteReportChecked env db fs n.toNat aid) ∧
    (∀ (env : Env) (db : DBState) (fs : FSState) (aid : Nat) (s : String),
      (jsParseInt s = none ∨ ∃ n, jsParseInt s = some n ∧ n ≤ 0) →
      deleteReportHandler env db fs s aid = ⟨400, db, fs⟩) := by
  constructor
  · intro env db fs aid s n hp hpos
    have hnle : ¬(n ≤ 0) := by omega
    simp [deleteReportHandler, hp, hnle]
  · intro env db fs aid s h
    exact deleteReportHandler_invalid env db fs s aid h

/-- C10, witness: `parseInt("3.7") = 3` and `parseInt("12abc") = 12`, and
the handler on `"3.7"` proceeds to delete report 3. -/
theorem C10_witness :
    jsParseInt "3.7" = some 3 ∧
    jsParseInt "12abc" = some 12 ∧
    deleteReportHandler envNoFault sampleDB sampleFS "3.7" 7 =
      deleteReportChecked envNoFault sampleDB sampleFS (Int.toNat 3) 7 :=
  ⟨by decide, by decide,
   C10_parseInt_prefix_validation.1 envNoFault sampleDB sampleFS 7 "3.7" 3 (by decide) (by decide)⟩

/-- C9: every `deleteReportCompletely` run acquires exactly one pooled
connection, releases it exactly once, the release is the final event of
the run, and the acquisition is the first — on every exit path. -/
theorem C9_connection_released (env : Env) (db : DBState) (fs : FSState)
    (rid aid : Nat) :
    ((deleteReportCompletely env db fs rid aid).trace).count Event.acquire = 1 ∧
    ((deleteReportCompletely env db fs rid aid).trace).count Event.release = 1 ∧
    (∃ front, (deleteReportCompletely env db fs rid aid).trace =
      front ++ [Event.release]) ∧
    (deleteReportCompletely env db fs rid aid).trace.head? = some Event.acquire := by
  cases hfind : db.reports.find? (fun x : Report => x.id == rid) with
  | none =>
    rw [deleteReport_notFound_struct env db fs rid aid hfind]
    exact ⟨rfl, rfl, ⟨[Event.acquire, Event.beginTx, Event.rollback], rfl⟩, rfl⟩
  | some r =>
    have hFa := files_trace_count env.fileFails fs r Event.acquire
      (fun p h => Event.noConfusion h)
    have hFr := files_trace_count env.fileFails fs r Event.release
      (fun p h => Event.noConfusion h)
    have hCa := cascade_trace_count env.cascadeFails db rid Event.acquire
      (fun u h => Event.noConfusion h)
    have hCr := cascade_trace_count env.cascadeFails db rid Event.release
      (fun u h => Event.noConfusion h)
    by_cases hw : env.concurrentDeleteWins = true
    · rw [deleteReport_conflict_struct env db fs rid aid r hfind hw]
      refine ⟨?_, ?_, ?_, ?_⟩
      · simp [List.count_append, hFa, hCa, List.count_cons]
      · simp [List.count_append, hFr, hCr, List.count_cons]
      · exact ⟨[Event.acquire, Event.beginTx] ++ (deleteAssociatedFiles env.fileFails fs r).2 ++
          (deleteFromAllRelatedTables env.cascadeFails db rid).2.2 ++
          [Event.reportDelete] ++ [Event.rollback], by simp [List.append_assoc]⟩
      · rfl
    · have hw' : env.concurrentDeleteWins = false := by
        revert hw; cases env.concurrentDeleteWins <;> simp
      have hAa := audit_trace_count env.auditFails
        ({ (deleteFromAllRelatedTables env.cascadeFails db rid).2.1 with
            reports := db.reports.filter (fun x => !(x.id == rid)) })
        rid r aid Event.acquire (fun h => Event.noConfusion h)
      have hAr := audit_trace_count env.auditFails
        ({ (deleteFromAllRelatedTables env.cascadeFails db rid).2.1 with
            reports := db.reports.filter (fun x => !(x.id == rid)) })
        rid r aid Event.release (fun h => Event.noConfusion h)
      rw [deleteReport_success_struct env db fs rid aid r hfind hw']
      refine ⟨?_, ?_, ?_, ?_⟩
      · simp [List.count_append, hFa, hCa, hAa, List.count_cons]
      · simp [List.count_append, hFr, hCr, hAr, List.count_cons]
      · exact ⟨[Event.acquire, Event.beginTx] ++ (deleteAssociatedFiles env.fileFails fs r).2 ++
          (deleteFromAllRelatedTables env.cascadeFails db rid).2.2 ++
          [Event.reportDelete] ++
          (logDeletionAction env.auditFails
            { (deleteFromAllRelatedTables env.cascadeFails db rid).2.1 with
                reports := db.reports.filter (fun x => !(x.id == rid)) }
            rid r aid).2 ++ [Event.commit], by simp [List.append_assoc]⟩
      · rfl

end OceanWatch
